import Mathlib

/-!
Verification development for the FoodFinder repository.

Shallow embedding of the core data model and operations:
  * `FAISSIndex` (src/src/vectorstore/faiss_index.py),
  * `MultimodalRetriever` (src/src/vectorstore/retriever.py),
  * the RAG tools (src/src/agent/tools/rag_text_tool.py, rag_image_tool.py,
    image_qa_tool.py),
  * the ReAct agent loop (src/src/agent/main_agent.py).

Conventions of the embedding:
  * Vector components are `Int` (exact arithmetic standing in for the float
    coordinates; the flat index performs exact squared-Euclidean search, which
    the claims address only through exact comparisons).
  * Distances and similarities are `Rat`.
  * Python exceptions are the `PyExc` type; a method that can raise returns
    `Except PyExc _` or pairs its result with `Option PyExc`.
  * `faiss.IndexFlatL2.search` returns, for each query, `k` result slots:
    the at-most-`k` nearest stored ids in ascending (distance, id) order,
    and, when fewer than `k` vectors are stored, the remaining slots hold
    id `-1` and distance `FLT_MAX`.  Only the flat (exact) kind is modelled
    in `search`; every claim about search concerns the flat kind.
-/

set_option maxHeartbeats 1000000

deriving instance DecidableEq for Except

/-- Python exception kinds that the modelled code can raise. -/
inductive PyExc
  | valueError
  | fileNotFoundError
  | attributeError
  | indexError
  | runtimeError
deriving DecidableEq, Repr

/-- A metadata record: an identifying payload for all ordinary dict entries,
plus the two keys (`distance`, `similarity`) that `search_image` writes into
result dicts; `none` means the key is absent from the dict. -/
structure MetaRec where
  payload : Nat
  distance : Option Rat
  similarity : Option Rat
deriving DecidableEq, Repr

instance : Inhabited MetaRec := ⟨⟨0, none, none⟩⟩

/-- The kind of the underlying faiss index object. -/
inductive IndexKind
  | flat
  | ivf
deriving DecidableEq, Repr

/-- The underlying faiss index object (`self.index` once it is not `None`):
its kind, its `is_trained` flag and the stored vectors. -/
structure InnerIndex where
  kind : IndexKind
  trained : Bool
  vectors : List (List Int)
deriving DecidableEq, Repr

/-- A numpy array argument, by rank; `rank2` carries `shape[1]` (the width)
and the rows.  (numpy arrays are rectangular, so for arrays coming from the
embedders every row of a `rank2` array has length `width`; theorems that need
rectangularity state it as a hypothesis.) -/
inductive Np
  | rank1 (xs : List Int)
  | rank2 (width : Nat) (rows : List (List Int))
  | rank3 (xss : List (List (List Int)))
deriving DecidableEq, Repr

/-- `embeddings.ndim`. -/
def Np.ndim : Np → Nat
  | .rank1 _ => 1
  | .rank2 _ _ => 2
  | .rank3 _ => 3

/-- `embeddings.shape[1]` (only read after the `ndim == 2` check passes). -/
def Np.shape1 : Np → Nat
  | .rank2 w _ => w
  | _ => 0

/-- `len(embeddings)`: the first-dimension length. -/
def Np.count : Np → Nat
  | .rank1 xs => xs.length
  | .rank2 _ rows => rows.length
  | .rank3 xss => xss.length

/-- The rows of a rank-2 array (the vectors that `index.add` stores). -/
def Np.rows : Np → List (List Int)
  | .rank2 _ rows => rows
  | _ => []

/-- Squared Euclidean distance between two vectors (exact; faiss `IndexFlatL2`
compares squared L2 distances). -/
def sqDist (a b : List Int) : Int :=
  ((a.zip b).map (fun p => (p.1 - p.2) ^ 2)).sum

/-- The exact value of single-precision `FLT_MAX` (`2^128 - 2^104`), the
distance faiss reports in unfilled result slots. -/
def fltMax : Rat := 340282346638528859811704183484516925440

/-- Comparison used to order faiss flat-search results: ascending distance,
ties by ascending stored id (faiss flat search returns results in ascending
distance order; no claim depends on the order among equal distances). -/
def distLe (a b : Int × Nat) : Prop :=
  a.1 < b.1 ∨ (a.1 = b.1 ∧ a.2 ≤ b.2)

instance : DecidableRel distLe := fun a b =>
  inferInstanceAs (Decidable (a.1 < b.1 ∨ (a.1 = b.1 ∧ a.2 ≤ b.2)))

instance : IsTotal (Int × Nat) distLe :=
  ⟨fun a b => by
    rcases lt_trichotomy a.1 b.1 with h | h | h
    · exact Or.inl (Or.inl h)
    · rcases Nat.le_total a.2 b.2 with h2 | h2
      · exact Or.inl (Or.inr ⟨h, h2⟩)
      · exact Or.inr (Or.inr ⟨h.symm, h2⟩)
    · exact Or.inr (Or.inl h)⟩

instance : IsTrans (Int × Nat) distLe :=
  ⟨fun a b c hab hbc => by
    rcases hab with h1 | ⟨h1, h1n⟩ <;> rcases hbc with h2 | ⟨h2, h2n⟩
    · exact Or.inl (h1.trans h2)
    · exact Or.inl (h2 ▸ h1)
    · exact Or.inl (h1 ▸ h2)
    · exact Or.inr ⟨h1.trans h2, h1n.trans h2n⟩⟩

/-- `faiss.IndexFlatL2.search` on stored vectors `stored`, one query `q`,
`k` result slots: the distances row and the ids row.  Slots beyond the number
of stored vectors hold distance `FLT_MAX` and id `-1`. -/
def faissFlatSearch (stored : List (List Int)) (q : List Int) (k : Nat) :
    List Rat × List Int :=
  let pairs := (List.range stored.length).map
    (fun j => (sqDist q (stored.getD j []), j))
  let found := (pairs.insertionSort distLe).take k
  let dists := found.map (fun p => ((p.1 : Rat))) ++
    List.replicate (k - found.length) fltMax
  let ids := found.map (fun p => ((p.2 : Nat) : Int)) ++
    List.replicate (k - found.length) (-1)
  (dists, ids)

/-- `FAISSIndex` (faiss_index.py): dimension, index type string, the optional
underlying faiss index, and the parallel metadata list. -/
structure FAISSIndex where
  dimension : Nat
  indexType : String
  index : Option InnerIndex
  metadata : List MetaRec
deriving DecidableEq, Repr

/-- `FAISSIndex.__init__(dimension, index_type="Flat")`. -/
def mkFAISSIndex (dimension : Nat) (indexType : String := "Flat") : FAISSIndex :=
  ⟨dimension, indexType, none, []⟩

/-- `FAISSIndex.create_index`: `"Flat"` builds `IndexFlatL2` (always trained),
`"IVF"` builds an untrained `IndexIVFFlat` (nlist = 100), anything else raises
`ValueError("Unknown index type: ...")`. -/
def createInner (indexType : String) : Except PyExc InnerIndex :=
  if indexType = "Flat" then .ok ⟨.flat, true, []⟩
  else if indexType = "IVF" then .ok ⟨.ivf, false, []⟩
  else .error .valueError

/-- The `is_trained`/`train` step of `add`: a flat index is always trained; an
untrained IVF index is trained on the batch, which faiss rejects (clustering
requires at least `nlist = 100` training points) when the batch is smaller. -/
def trainIfNeeded (inner : InnerIndex) (rows : List (List Int)) :
    Except PyExc InnerIndex :=
  if inner.trained then .ok inner
  else if rows.length < 100 then .error .runtimeError
  else .ok { inner with trained := true }

/-- The body of `FAISSIndex.add` after the underlying index exists: the three
shape validations in source order, then train-if-needed, then the lock-step
append to vector storage and metadata.  Returns the post-state and the raised
exception, if any (a raise leaves the already-performed mutations in place). -/
def addChecked (fi : FAISSIndex) (inner : InnerIndex) (emb : Np)
    (md : List MetaRec) : FAISSIndex × Option PyExc :=
  if emb.ndim ≠ 2 then (fi, some .valueError)
  else if emb.shape1 ≠ fi.dimension then (fi, some .valueError)
  else if emb.count ≠ md.length then (fi, some .valueError)
  else
    match trainIfNeeded inner emb.rows with
    | .error e => (fi, some e)
    | .ok inner2 =>
      ({ fi with
          index := some { inner2 with vectors := inner2.vectors ++ emb.rows },
          metadata := fi.metadata ++ md }, none)

/-- `FAISSIndex.add(embeddings, metadata)`: creates the underlying index when
it is `None` (which can itself raise for an unknown index type, leaving the
object unchanged), then validates, trains if needed, and appends. -/
def FAISSIndex.add (fi : FAISSIndex) (emb : Np) (md : List MetaRec) :
    FAISSIndex × Option PyExc :=
  match fi.index with
  | none =>
    match createInner fi.indexType with
    | .error e => (fi, some e)
    | .ok inner => addChecked { fi with index := some inner } inner emb md
  | some inner => addChecked fi inner emb md

/-- The vectors currently stored in the index (empty while `self.index` is
`None`). -/
def FAISSIndex.storedVectors (fi : FAISSIndex) : List (List Int) :=
  match fi.index with
  | none => []
  | some inner => inner.vectors

/-- Resolution of a Python list subscript `l[idx]` for `idx : Int`:
non-negative indices are used directly, negative ones count from the end;
`none` is an `IndexError`. -/
def resolveIdx (len : Nat) (idx : Int) : Option Nat :=
  if 0 ≤ idx then (if idx < (len : Int) then some idx.toNat else none)
  else if 0 ≤ (len : Int) + idx then some ((len : Int) + idx).toNat
  else none

/-- The comprehension
`[self.metadata[idx] for idx in indices[0] if idx < len(self.metadata)]`,
resolved to store positions, left to right: an `idx` failing the filter is
skipped; a kept `idx` that Python indexing cannot resolve (the faiss `-1`
padding when the metadata list is empty) raises `IndexError`; a kept negative
`idx` otherwise resolves to position `len(metadata) - 1`. -/
def keptPositions (len : Nat) : List Int → Except PyExc (List Nat)
  | [] => .ok []
  | idx :: rest =>
    if idx < (len : Int) then
      match resolveIdx len idx with
      | none => .error .indexError
      | some p =>
        match keptPositions len rest with
        | .error e => .error e
        | .ok ps => .ok (p :: ps)
    else keptPositions len rest

/-- `FAISSIndex.search`, resolved to metadata *positions*: a `None` underlying
index raises (`AttributeError`); otherwise run the faiss search and evaluate
the comprehension over the returned id row. -/
def FAISSIndex.searchPositions (fi : FAISSIndex) (q : List Int) (k : Nat) :
    Except PyExc (List Rat × List Nat) :=
  match fi.index with
  | none => .error .attributeError
  | some inner =>
    let dr := faissFlatSearch inner.vectors q k
    match keptPositions fi.metadata.length dr.2 with
    | .error e => .error e
    | .ok ps => .ok (dr.1, ps)

/-- `FAISSIndex.search(query_embedding, k)`: the distances row and the list of
metadata records the comprehension builds; `.error` models the exception
propagating out of `search`. -/
def FAISSIndex.search (fi : FAISSIndex) (q : List Int) (k : Nat) :
    Except PyExc (List Rat × List MetaRec) :=
  (fi.searchPositions q k).map (fun dp =>
    (dp.1, dp.2.map (fun p => fi.metadata.getD p default)))

-- Sanity checks (removed in favour of theorems below).

example :
    (mkFAISSIndex 1).add (Np.rank2 1 [[0], [2]]) [⟨0, none, none⟩, ⟨1, none, none⟩]
      = (⟨1, "Flat", some ⟨.flat, true, [[0], [2]]⟩,
          [⟨0, none, none⟩, ⟨1, none, none⟩]⟩, none) := by decide

example :
    (FAISSIndex.search ⟨1, "Flat", some ⟨.flat, true, [[0], [2]]⟩,
        [⟨0, none, none⟩, ⟨1, none, none⟩]⟩ [2] 1)
      = .ok ([0], [⟨1, none, none⟩]) := by decide

-- An index holding one vector, searched with k = 2: the `-1` padding slot
-- passes the `idx < len(metadata)` filter and Python resolves `metadata[-1]`
-- to the last record, so the single record is returned twice.
example :
    (FAISSIndex.search ⟨1, "Flat", some ⟨.flat, true, [[0]]⟩, [⟨7, none, none⟩]⟩
        [0] 2)
      = .ok ([0, fltMax], [⟨7, none, none⟩, ⟨7, none, none⟩]) := by decide

/-! ## Multimodal retriever (retriever.py) -/

/-- A persisted index artifact pair (`*.faiss` vector store plus `*.pkl`
metadata list, co-located and loaded as a unit). -/
structure Artifact where
  inner : InnerIndex
  metadata : List MetaRec
deriving DecidableEq, Repr

/-- `FAISSIndex.load(index_path, metadata_path)`: replaces the underlying
index and the metadata list, keeping the constructor fields. -/
def FAISSIndex.load (fi : FAISSIndex) (a : Artifact) : FAISSIndex :=
  { fi with index := some a.inner, metadata := a.metadata }

/-- The index directory contents seen by `load_indices`: the optional text
artifact pair and the optional image artifact pair. -/
structure FS where
  textArtifact : Option Artifact
  imageArtifact : Option Artifact

/-- `MultimodalRetriever`: one `(embedder, index)` pair per modality.  The
embedders are opaque vector-of-ints services (embedding-model internals are
out of scope). -/
structure MultimodalRetriever where
  textEmbed : String → List Int
  imageEmbed : String → List Int
  text_index : FAISSIndex
  image_index : FAISSIndex

/-- `MultimodalRetriever.__init__`: fresh 768-dimensional text index and
fresh 512-dimensional image index, both with no underlying faiss index yet. -/
def mkRetriever (textEmbed imageEmbed : String → List Int) :
    MultimodalRetriever :=
  ⟨textEmbed, imageEmbed, mkFAISSIndex 768, mkFAISSIndex 512⟩

/-- `MultimodalRetriever.search_text(query, k)`: embed and search the text
index, return the metadata records only; `.error` models an exception
propagating out of the underlying `search`. -/
def MultimodalRetriever.search_text (r : MultimodalRetriever) (query : String)
    (k : Nat) : Except PyExc (List MetaRec) :=
  (r.text_index.search (r.textEmbed query) k).map Prod.snd

/-- `MetaRec` after `result["distance"] = float(d); result["similarity"] =
float(1 / (1 + d))`. -/
def setDistSim (m : MetaRec) (d : Rat) : MetaRec :=
  { m with distance := some d, similarity := some (1 / (1 + d)) }

/-- The enrichment loop of `search_image`: each returned result is a
*reference* to the stored metadata dict at the resolved position, so writing
`distance`/`similarity` on result `i` (paired with `distances[i]`) updates the
store in place; later writes to the same position win. -/
def enrichMetadata (md : List MetaRec) (ps : List Nat) (ds : List Rat) :
    List MetaRec :=
  (ps.zip ds).foldl (fun acc pd => acc.set pd.1 (setDistSim (acc.getD pd.1 default) pd.2)) md

/-- `MultimodalRetriever.search_image(image_path, k)`: embed and search the
image index, then write `distance` and `similarity` into each returned result
dict (which aliases the stored metadata record).  Returns the results as read
after the loop, together with the post-state of the retriever; an `.error`
result models an exception propagating out of the underlying `search` (the
state is then unchanged). -/
def MultimodalRetriever.search_image (r : MultimodalRetriever)
    (image_path : String) (k : Nat) :
    Except PyExc (List MetaRec) × MultimodalRetriever :=
  match r.image_index.searchPositions (r.imageEmbed image_path) k with
  | .error e => (.error e, r)
  | .ok (dists, positions) =>
    let md2 := enrichMetadata r.image_index.metadata positions dists
    (.ok (positions.map (fun p => md2.getD p default)),
     { r with image_index := { r.image_index with metadata := md2 } })

/-- `MultimodalRetriever.load_indices()`: the text artifact is required
(absence raises `FileNotFoundError`); the image artifact is optional (absence
is silently tolerated and leaves the image index as it was). -/
def MultimodalRetriever.load_indices (r : MultimodalRetriever) (fs : FS) :
    Except PyExc MultimodalRetriever :=
  match fs.textArtifact with
  | none => .error .fileNotFoundError
  | some ta =>
    let r1 := { r with text_index := r.text_index.load ta }
    match fs.imageArtifact with
    | none => .ok r1
    | some ia => .ok { r1 with image_index := r1.image_index.load ia }

/-! ## ReAct agent loop (main_agent.py) -/

/-- A LangChain message in the conversation state.  `ai` carries the
`tool_calls` list (tool names; arguments are irrelevant to the claims). -/
inductive Msg
  | system (content : String)
  | human (content : String)
  | ai (content : String) (tool_calls : List String)
  | tool (content : String)
deriving DecidableEq, Repr

instance : Inhabited Msg := ⟨.human ""⟩

/-- `isinstance(m, SystemMessage)`. -/
def Msg.isSystem : Msg → Bool
  | .system _ => true
  | _ => false

/-- `hasattr(m, "tool_calls") and m.tool_calls`: only AI messages carry the
attribute, and a nonempty list is truthy. -/
def Msg.hasToolCalls : Msg → Bool
  | .ai _ tcs => !tcs.isEmpty
  | _ => false

/-- The tool calls requested by a message (empty for non-AI messages). -/
def Msg.toolCalls : Msg → List String
  | .ai _ tcs => tcs
  | _ => []

/-- The leading line of the ReAct system prompt (the full text steers the
model only; no claim depends on its content). -/
def systemPrompt : String :=
  "You are a helpful restaurant recommendation assistant with access to specialized tools."

/-- `FoodFinderAgent._should_continue`: route to the tools node when the last
message requests at least one tool call, else to the end.  (The graph invokes
it only on nonempty message lists; `messages[-1]` is the last message.) -/
def shouldContinue (msgs : List Msg) : String :=
  if (msgs.getLastD default).hasToolCalls then "tools" else "end"

/-- The injection guard of `_call_model`: `len(messages) == 1 or not
any(isinstance(m, SystemMessage) for m in messages)`. -/
def injectsSystem (msgs : List Msg) : Bool :=
  msgs.length == 1 || !(msgs.any Msg.isSystem)

/-- The message list `_call_model` actually invokes the model on: the system
prompt is prepended when the guard fires; the prepended copy is *not* written
back to the conversation state (the node only returns the model response). -/
def callModelMessages (msgs : List Msg) : List Msg :=
  if injectsSystem msgs then Msg.system systemPrompt :: msgs else msgs

/-- `ToolNode` acting step: execute each tool call of the routed AI message in
request order and produce one tool observation message per call. -/
def toolNode (exec : String → String) (m : Msg) : List Msg :=
  m.toolCalls.map (fun t => Msg.tool (exec t))

/-- Observable statistics of one graph run. -/
structure RunTrace where
  reasoningSteps : Nat
  actingSteps : Nat
  injections : Nat
  finished : Bool
  final : List Msg
deriving DecidableEq, Repr

/-- The compiled ReAct graph of `build_graph`, run on fuel (the source loop
has no iteration ceiling; `finished = false` records fuel exhaustion, which
never occurs in the finite scenarios of the claims):
`START → agent`, `agent --(_should_continue)--> tools | END`, `tools → agent`.
Each iteration is one Reasoning step (`_call_model`, appending the response to
the state), followed either by an Acting step (`ToolNode` appending one
observation per requested call) or by termination.  `llm` maps the invoked
context to the AI response (content, tool-call requests), as
`model_with_tools.invoke` returns an `AIMessage`. -/
def runGraph (llm : List Msg → String × List String) (exec : String → String) :
    Nat → List Msg → RunTrace
  | 0, msgs => ⟨0, 0, 0, false, msgs⟩
  | fuel + 1, msgs =>
    let inj := if injectsSystem msgs then 1 else 0
    let resp := Msg.ai (llm (callModelMessages msgs)).1 (llm (callModelMessages msgs)).2
    let msgs1 := msgs ++ [resp]
    if shouldContinue msgs1 = "tools" then
      let t := runGraph llm exec fuel (msgs1 ++ toolNode exec resp)
      ⟨t.reasoningSteps + 1, t.actingSteps + 1, t.injections + inj,
        t.finished, t.final⟩
    else
      ⟨1, 0, inj, true, msgs1⟩

/-! ## Tool layer (rag_text_tool.py, rag_image_tool.py, image_qa_tool.py) -/

/-- Rendering of `str(e)` for the error payloads (the claims never inspect
the text beyond it being a returned string). -/
def errStr : PyExc → String
  | .valueError => "ValueError"
  | .fileNotFoundError => "FileNotFoundError"
  | .attributeError => "AttributeError"
  | .indexError => "IndexError"
  | .runtimeError => "RuntimeError"

/-- Stands in for `json.dumps(results, indent=2)` (no claim inspects the
serialized text). -/
def jsonDumps (results : List MetaRec) : String :=
  String.intercalate ", " (results.map (fun m => toString m.payload))

/-- Shared mutable state of one RAG tool instance: the injected retriever
(possibly `None`) and the `_indices_loaded` flag. -/
structure RagToolState where
  retriever : Option MultimodalRetriever
  indicesLoaded : Bool

/-- The result formatting of `RAGTextTool._run`: the explicit no-match string
on an empty result list, else the serialized results. -/
def formatTextResults (results : List MetaRec) : String :=
  if results.isEmpty then "No restaurants found matching your query."
  else jsonDumps results

/-- The `try:` body of `RAGTextTool._run`: lazily load the indices when the
flag is unset and a retriever is present (setting the flag only after the
load returns), then search and format.  Returns the post-state, whether
`load_indices` was invoked, and the body outcome (`error` = an exception
reached the `except` handler; a retriever of `None` makes
`self.retriever.search_text` raise `AttributeError`). -/
def ragTextBody (st : RagToolState) (fs : FS) (query : String) (k : Nat) :
    RagToolState × Bool × Except PyExc String :=
  match st.retriever with
  | none => (st, false, .error .attributeError)
  | some r =>
    if st.indicesLoaded then
      match r.search_text query k with
      | .error e => (st, false, .error e)
      | .ok results => (st, false, .ok (formatTextResults results))
    else
      match r.load_indices fs with
      | .error e => (st, true, .error e)
      | .ok r2 =>
        match r2.search_text query k with
        | .error e => (⟨some r2, true⟩, true, .error e)
        | .ok results => (⟨some r2, true⟩, true, .ok (formatTextResults results))

/-- `RAGTextTool._run`: the body under `try`, with every exception converted
by the `except` clause into a textual error payload.  The `Except` component
is what the caller observes: `.ok` = a returned string, `.error` = an
exception propagating out (which the wrapper never produces). -/
def ragTextToolRun (st : RagToolState) (fs : FS) (query : String) (k : Nat) :
    RagToolState × Bool × Except PyExc String :=
  match ragTextBody st fs query k with
  | (st2, called, .ok s) => (st2, called, .ok s)
  | (st2, called, .error e) =>
    (st2, called, .ok ("Error retrieving restaurants: " ++ errStr e))

/-- The result formatting of `RAGImageTool._run`. -/
def formatImageResults (results : List MetaRec) : String :=
  if results.isEmpty then "No similar restaurants found for the provided image."
  else jsonDumps results

/-- The `try:` body of `RAGImageTool._run` (same lazy-load protocol as the
text tool, then `search_image`, which may update the retriever state). -/
def ragImageBody (st : RagToolState) (fs : FS) (image_path : String) (k : Nat) :
    RagToolState × Bool × Except PyExc String :=
  match st.retriever with
  | none => (st, false, .error .attributeError)
  | some r =>
    if st.indicesLoaded then
      match r.search_image image_path k with
      | (.error e, r2) => (⟨some r2, true⟩, false, .error e)
      | (.ok results, r2) => (⟨some r2, true⟩, false, .ok (formatImageResults results))
    else
      match r.load_indices fs with
      | .error e => (st, true, .error e)
      | .ok r2 =>
        match r2.search_image image_path k with
        | (.error e, r3) => (⟨some r3, true⟩, true, .error e)
        | (.ok results, r3) => (⟨some r3, true⟩, true, .ok (formatImageResults results))

/-- `RAGImageTool._run`: body under `try` plus the catch-all `except`. -/
def ragImageToolRun (st : RagToolState) (fs : FS) (image_path : String)
    (k : Nat) : RagToolState × Bool × Except PyExc String :=
  match ragImageBody st fs image_path k with
  | (st2, called, .ok s) => (st2, called, .ok s)
  | (st2, called, .error e) =>
    (st2, called, .ok ("Error retrieving similar restaurants: " ++ errStr e))

/-- Python `w in s` on strings: substring containment. -/
def pyIn (w s : String) : Bool :=
  s.data.tails.any (fun t => w.data.isPrefixOf t)

/-- `any(word in question_lower for word in words)`. -/
def containsAny (words : List String) (s : String) : Bool :=
  words.any (fun w => pyIn w s)

/-- An apostrophe character as a string (used inside source keyword strings). -/
def apos : String := String.singleton (Char.ofNat 39)

/-- `ImageQATool._generate_answer_candidates`: keyword-classify the question
into one of six categories and return the fixed candidate list of that
category. -/
def generateAnswerCandidates (question : String) : List String :=
  let ql := question.toLower
  if containsAny ["cuisine", "type of food", "what kind"] ql then
    ["Italian cuisine", "Chinese cuisine", "Japanese cuisine", "Mexican cuisine",
     "Indian cuisine", "Thai cuisine", "French cuisine", "American cuisine",
     "Mediterranean cuisine", "Korean cuisine", "Vietnamese cuisine", "Greek cuisine"]
  else if containsAny ["describe", "what is this", "what dish"] ql then
    ["a pizza", "a pasta dish", "a burger", "a salad", "a soup",
     "a sandwich", "a steak", "seafood", "a dessert", "a rice dish",
     "noodles", "a vegetable dish", "fried food", "grilled food", "baked food"]
  else if containsAny ["ingredient", "what" ++ apos ++ "s in", "contains"] ql then
    ["vegetables", "meat", "seafood", "cheese", "pasta", "rice",
     "bread", "sauce", "herbs", "spices", "chicken", "beef",
     "pork", "fish", "tofu", "eggs", "mushrooms", "tomatoes"]
  else if containsAny ["setting", "dining", "atmosphere", "ambiance"] ql then
    ["formal dining", "casual dining", "fast food", "fine dining",
     "outdoor seating", "indoor seating", "modern decor", "traditional decor",
     "cozy atmosphere", "elegant setting"]
  else if containsAny ["protein", "main ingredient"] ql then
    ["chicken", "beef", "pork", "fish", "shrimp", "tofu",
     "lamb", "turkey", "duck", "seafood", "no protein (vegetarian)"]
  else
    ["yes", "no", "possibly", "likely", "unlikely",
     "a food dish", "a restaurant setting", "a beverage",
     "multiple items", "unclear from image"]

/-- `torch.topk` index selection: the positions of the `n` largest
probabilities, in descending order. -/
def topkIdx (probs : List Rat) (n : Nat) : List Nat :=
  (@List.insertionSort Nat (fun i j => probs.getD j 0 ≤ probs.getD i 0)
    (fun i j => inferInstanceAs (Decidable (probs.getD j 0 ≤ probs.getD i 0)))
    (List.range probs.length)).take n

/-- The response formatting of `ImageQATool._run`: the top-3 candidates with
confidences, then either the most-likely answer or the low-confidence note
(`best_confidence > 50` gate). -/
def formatQAResponse (question : String) (candidates : List String)
    (probs : List Rat) : String :=
  let top := topkIdx probs (min 3 candidates.length)
  let lines := top.map (fun idx =>
    (candidates.getD idx "") ++ " (confidence: " ++
      toString (probs.getD idx 0 * 100) ++ ")")
  let best := candidates.getD (top.getD 0 0) ""
  let bestConf := probs.getD (top.getD 0 0) 0 * 100
  "Question: " ++ question ++ "\n\nAnswer based on image analysis:\n" ++
    String.intercalate "\n" lines ++
    (if 50 < bestConf then "\n\nMost likely: " ++ best
     else "\nNote: Low confidence in all answers. The image may not clearly show the requested information.")

/-- The `try:` body of `ImageQATool._run`.  `openRes` is the outcome of
`Image.open(...).convert("RGB")`; `scoreRes` is the outcome of the CLIP
processor/model/softmax pipeline, producing one probability per candidate
(both are opaque external services; either may raise). -/
def imageQABody (openRes : Except PyExc Unit) (scoreRes : Except PyExc (List Rat))
    (image_path question : String) : Except PyExc String :=
  let _ := image_path
  match openRes with
  | .error e => .error e
  | .ok _ =>
    let candidates := generateAnswerCandidates question
    match scoreRes with
    | .error e => .error e
    | .ok probs => .ok (formatQAResponse question candidates probs)

/-- `ImageQATool._run`: body under `try` plus the catch-all `except`. -/
def imageQAToolRun (openRes : Except PyExc Unit)
    (scoreRes : Except PyExc (List Rat)) (image_path question : String) :
    Except PyExc String :=
  match imageQABody openRes scoreRes image_path question with
  | .ok s => .ok s
  | .error e => .ok ("Error analyzing image: " ++ errStr e)

/-! ## Supporting lemmas -/

theorem sqDist_nonneg (a b : List Int) : 0 ≤ sqDist a b := by
  apply List.sum_nonneg
  intro x hx
  obtain ⟨p, hp, rfl⟩ := List.mem_map.mp hx
  exact sq_nonneg _

theorem sqDist_cons (x y : Int) (a b : List Int) :
    sqDist (x :: a) (y :: b) = (x - y) ^ 2 + sqDist a b := by
  simp [sqDist]

theorem sqDist_self (a : List Int) : sqDist a a = 0 := by
  induction a with
  | nil => rfl
  | cons x xs ih => rw [sqDist_cons, ih]; ring

theorem eq_of_sqDist_eq_zero : ∀ {a b : List Int}, a.length = b.length →
    sqDist a b = 0 → a = b
  | [], [], _, _ => rfl
  | [], _ :: _, h, _ => by simp at h
  | _ :: _, [], h, _ => by simp at h
  | x :: xs, y :: ys, h, h0 => by
    rw [sqDist_cons] at h0
    have h1 : (0 : Int) ≤ (x - y) ^ 2 := sq_nonneg _
    have h2 : 0 ≤ sqDist xs ys := sqDist_nonneg xs ys
    have hx : (x - y) ^ 2 = 0 ∧ sqDist xs ys = 0 := by constructor <;> linarith
    have hxy : x = y := by
      have hsub := pow_eq_zero_iff (two_ne_zero) |>.mp hx.1
      omega
    have hlen : xs.length = ys.length := by simpa using h
    rw [hxy, eq_of_sqDist_eq_zero hlen hx.2]

/-- On a duplicate-free store of equal-width vectors, a flat search for the
stored vector at position `i` with `k = 1` returns exactly distance `0` and
id `i`. -/
theorem faissFlatSearch_self (E : List (List Int)) (d i : Nat) (hi : i < E.length)
    (hdup : E.Nodup) (hlen : ∀ v ∈ E, v.length = d) :
    faissFlatSearch E (E.getD i []) 1 = ([0], [((i : Nat) : Int)]) := by
  have hq : E.getD i [] = E[i] := by
    simp [List.getD_eq_getElem?_getD, List.getElem?_eq_getElem hi]
  set q := E.getD i [] with hqdef
  set pairs := (List.range E.length).map (fun j => (sqDist q (E.getD j []), j))
    with hpairs
  have hlenpairs : pairs.length = E.length := by rw [hpairs]; simp
  have hperm := List.perm_insertionSort distLe pairs
  have hsorted := List.sorted_insertionSort distLe pairs
  have hmem0 : ((0 : Int), i) ∈ pairs := by
    rw [hpairs]
    refine List.mem_map.mpr ⟨i, List.mem_range.mpr hi, ?_⟩
    rw [← hqdef, sqDist_self]
  obtain ⟨p, rest, hcons⟩ : ∃ p rest, pairs.insertionSort distLe = p :: rest := by
    match hh : pairs.insertionSort distLe with
    | [] =>
      exfalso
      have hl := hperm.length_eq
      rw [hh] at hl
      simp only [List.length_nil] at hl
      omega
    | p :: rest => exact ⟨p, rest, rfl⟩
  have hp0 : p = ((0 : Int), i) := by
    have h0mem : ((0 : Int), i) ∈ p :: rest := by
      rw [← hcons]; exact (hperm.mem_iff).mpr hmem0
    rcases List.mem_cons.mp h0mem with heq | hrest
    · exact heq.symm
    · have hpmem : p ∈ pairs := (hperm.mem_iff).mp
        (hcons ▸ List.mem_cons_self _ _)
      obtain ⟨j, hjr, hpj⟩ := List.mem_map.mp (hpairs ▸ hpmem)
      rw [List.mem_range] at hjr
      have hle : distLe p ((0 : Int), i) := by
        rw [hcons] at hsorted
        exact List.rel_of_sorted_cons hsorted _ hrest
      have hnn : 0 ≤ p.1 := by rw [← hpj]; exact sqDist_nonneg _ _
      rcases hle with hlt | ⟨hz, _⟩
      · exact absurd hlt (by simp only [not_lt]; exact hnn)
      · have hfst : p.1 = sqDist q (E.getD j []) := by rw [← hpj]
        have hd0 : sqDist q (E.getD j []) = 0 := by rw [← hfst]; exact hz
        have hjmem : E.getD j [] ∈ E := by
          rw [List.getD_eq_getElem?_getD, List.getElem?_eq_getElem hjr]
          exact List.getElem_mem hjr
        have hqmem : q ∈ E := by
          rw [hq]; exact List.getElem_mem hi
        have hlq : q.length = (E.getD j []).length := by
          rw [hlen q hqmem, hlen _ hjmem]
        have heqv : q = E.getD j [] := eq_of_sqDist_eq_zero hlq hd0
        have hgj : E.getD j [] = E[j] := by
          simp [List.getD_eq_getElem?_getD, List.getElem?_eq_getElem hjr]
        have hEji : E[j] = E[i] := by rw [← hgj, ← heqv]; exact hq
        have hji : j = i := (hdup.getElem_inj_iff).mp hEji
        rw [← hpj, hji, ← hqdef, sqDist_self]
  rw [show (1 : Nat) = 1 from rfl]
  simp only [faissFlatSearch]
  rw [← hpairs, hcons, hp0]
  simp

/-! ## Claim theorems -/

/-- C1: for every duplicate-free vector set `E` of the dimension of the index and
metadata `M` with `len(E) == len(M)`, after `add(E, M)` on a flat index,
`search(e, k=1)` for each `e ∈ E` succeeds and returns exactly the metadata
record paired with `e` at insertion. -/
theorem c1_flat_exact_hit (d : Nat) (E : List (List Int)) (M : List MetaRec)
    (i : Nat) (hdup : E.Nodup) (hlen : ∀ v ∈ E, v.length = d)
    (hEM : E.length = M.length) (hi : i < E.length) :
    ((mkFAISSIndex d).add (Np.rank2 d E) M).2 = none ∧
    ((((mkFAISSIndex d).add (Np.rank2 d E) M).1.search (E.getD i []) 1).map
        Prod.snd) = .ok [M.getD i default] := by
  have hadd : (mkFAISSIndex d).add (Np.rank2 d E) M
      = (⟨d, "Flat", some ⟨.flat, true, E⟩, M⟩, none) := by
    simp [FAISSIndex.add, mkFAISSIndex, createInner, addChecked, trainIfNeeded,
      Np.ndim, Np.shape1, Np.count, Np.rows, hEM]
  refine ⟨by rw [hadd], ?_⟩
  rw [hadd]
  have hsearch := faissFlatSearch_self E d i hi hdup hlen
  have hiM : (i : Int) < (M.length : Int) := by
    have : i < M.length := hEM ▸ hi
    exact_mod_cast this
  simp only [FAISSIndex.search, FAISSIndex.searchPositions, hsearch]
  simp [keptPositions, resolveIdx, hiM, Int.toNat_natCast, Except.map]

/-- Witness for C1 at a concrete instance. -/
theorem c1_flat_exact_hit_witness :
    ((mkFAISSIndex 1).add (Np.rank2 1 [[0], [2]])
        [⟨3, none, none⟩, ⟨4, none, none⟩]).2 = none ∧
    ((((mkFAISSIndex 1).add (Np.rank2 1 [[0], [2]])
        [⟨3, none, none⟩, ⟨4, none, none⟩]).1.search ([[0], [2]].getD 1 []) 1).map
        Prod.snd)
      = .ok [[(⟨3, none, none⟩ : MetaRec), ⟨4, none, none⟩].getD 1 default] :=
  c1_flat_exact_hit 1 [[0], [2]] [⟨3, none, none⟩, ⟨4, none, none⟩] 1
    (by decide) (by decide) (by decide) (by decide)

/-- C2 (the code evaluated at the failing input): a flat index holding a
single vector, searched with `k = 2`, returns *two* results — the only stored
record duplicated — because the faiss `-1` padding id passes the
`idx < len(metadata)` filter and Python resolves `metadata[-1]` to the last
record.  The spec requires exactly `n = 1` result when `n < k`. -/
theorem c2_padding_duplicates_last :
    FAISSIndex.search ⟨1, "Flat", some ⟨.flat, true, [[0]]⟩, [⟨7, none, none⟩]⟩
        [0] 2
      = .ok ([0, fltMax], [⟨7, none, none⟩, ⟨7, none, none⟩]) := by decide

/-- C3 (the code evaluated at the failing input): searching an index that
contains zero entries raises — `AttributeError` on a fresh index whose
underlying faiss index was never created, and `IndexError` on a
created-but-empty index, where the faiss `-1` padding id passes the
`idx < len(metadata)` filter (`-1 < 0`) and `metadata[-1]` on an empty list
is out of range.  The spec requires an empty result set and no error. -/
theorem c3_empty_search_raises :
    (mkFAISSIndex 1).search [0] 5 = .error .attributeError ∧
    FAISSIndex.search ⟨1, "Flat", some ⟨.flat, true, []⟩, []⟩ [0] 5
      = .error .indexError := by decide

/-- The behaviour of `addChecked` on a trained inner index: validation fails
exactly on the three shape conditions; success appends in lock-step; failure
leaves the object unchanged. -/
theorem addChecked_spec (fi : FAISSIndex) (inner : InnerIndex) (emb : Np)
    (md : List MetaRec) (htr : inner.trained = true) :
    (((addChecked fi inner emb md).2 ≠ none) ↔
      (emb.ndim ≠ 2 ∨ emb.shape1 ≠ fi.dimension ∨ emb.count ≠ md.length)) ∧
    ((addChecked fi inner emb md).2 = none →
      (addChecked fi inner emb md).1
        = { fi with
            index := some { inner with vectors := inner.vectors ++ emb.rows },
            metadata := fi.metadata ++ md }) ∧
    ((addChecked fi inner emb md).2 ≠ none →
      (addChecked fi inner emb md).1 = fi) := by
  by_cases h1 : emb.ndim ≠ 2
  · simp [addChecked, h1]
  · by_cases h2 : emb.shape1 ≠ fi.dimension
    · simp [addChecked, h1, h2]
    · by_cases h3 : emb.count ≠ md.length
      · simp [addChecked, h1, h2, h3]
      · simp [addChecked, h1, h2, h3, trainIfNeeded, htr]

/-- C7 counterexample: on an index constructed with an unknown index type,
`add` raises `ValueError` (from `create_index`) even though the vectors are
rank-2, of the index width, and `len(vectors) == len(metadata)` — refuting
the claimed "fails if and only if" as stated. -/
theorem c7_counterexample :
    ((mkFAISSIndex 1 "X").add (Np.rank2 1 [[0]]) [⟨0, none, none⟩]).2
        = some PyExc.valueError ∧
    (Np.rank2 1 [[0]]).ndim = 2 ∧
    (Np.rank2 1 [[0]]).shape1 = (mkFAISSIndex 1 "X").dimension ∧
    (Np.rank2 1 [[0]]).count = [(⟨0, none, none⟩ : MetaRec)].length := by decide

/-- C7 (amended): for an index whose index type is `"Flat"` (the default) or
whose underlying index is already created and trained, `add` fails with
`ValueError` iff the vectors are not rank-2, or the vector width differs from
the index dimension, or `len(vectors) != len(metadata)`; on success it
appends vectors and metadata in lock-step, preserving
`count(vectors) == count(metadata)`; on failure neither store changes. -/
theorem c7_add_validation (fi : FAISSIndex) (emb : Np) (md : List MetaRec)
    (hready : (fi.index = none ∧ fi.indexType = "Flat") ∨
      (∃ inner, fi.index = some inner ∧ inner.trained = true)) :
    (((fi.add emb md).2 ≠ none) ↔
      (emb.ndim ≠ 2 ∨ emb.shape1 ≠ fi.dimension ∨ emb.count ≠ md.length)) ∧
    ((fi.add emb md).2 = none →
      (fi.add emb md).1.storedVectors = fi.storedVectors ++ emb.rows ∧
      (fi.add emb md).1.metadata = fi.metadata ++ md ∧
      (fi.storedVectors.length = fi.metadata.length →
        (fi.add emb md).1.storedVectors.length
          = (fi.add emb md).1.metadata.length)) ∧
    ((fi.add emb md).2 ≠ none →
      (fi.add emb md).1.storedVectors = fi.storedVectors ∧
      (fi.add emb md).1.metadata = fi.metadata) := by
  have rowsLen : ∀ (g : FAISSIndex),
      (g.add emb md).2 = none →
      (((g.add emb md).2 ≠ none) ↔
        (emb.ndim ≠ 2 ∨ emb.shape1 ≠ g.dimension ∨ emb.count ≠ md.length)) →
      emb.rows.length = md.length := by
    intro g hsucc hiff
    have hnot : ¬(emb.ndim ≠ 2 ∨ emb.shape1 ≠ g.dimension ∨
        emb.count ≠ md.length) := by
      intro hcon
      exact (hiff.mpr hcon) hsucc
    push_neg at hnot
    rcases emb with xs | ⟨w, rows⟩ | xss
    · exact absurd hnot.1 (by simp [Np.ndim])
    · simpa [Np.rows, Np.count] using hnot.2.2
    · exact absurd hnot.1 (by simp [Np.ndim])
  rcases hready with ⟨hnone, hflat⟩ | ⟨inner, hsome, htr⟩
  · have hadd : fi.add emb md
        = addChecked { fi with index := some ⟨.flat, true, []⟩ }
            ⟨.flat, true, []⟩ emb md := by
      simp only [FAISSIndex.add, hnone, createInner, hflat, if_pos]
    have hspec := addChecked_spec
      { fi with index := some (⟨.flat, true, []⟩ : InnerIndex) }
      ⟨.flat, true, []⟩ emb md rfl
    rw [hadd]
    refine ⟨hspec.1, ?_, ?_⟩
    · intro hsucc
      have heq := hspec.2.1 hsucc
      have hrl : emb.rows.length = md.length := by
        apply rowsLen fi
        · rw [hadd]; exact hsucc
        · rw [hadd]; exact hspec.1
      rw [heq]
      refine ⟨?_, rfl, ?_⟩
      · simp [FAISSIndex.storedVectors, hnone]
      · intro hinv
        simp [FAISSIndex.storedVectors, hnone] at hinv ⊢
        omega
    · intro hfail
      have heq := hspec.2.2 hfail
      rw [heq]
      exact ⟨by simp [FAISSIndex.storedVectors, hnone], rfl⟩
  · have hadd : fi.add emb md = addChecked fi inner emb md := by
      simp only [FAISSIndex.add, hsome]
    have hspec := addChecked_spec fi inner emb md htr
    rw [hadd]
    refine ⟨hspec.1, ?_, ?_⟩
    · intro hsucc
      have heq := hspec.2.1 hsucc
      have hrl : emb.rows.length = md.length := by
        apply rowsLen fi
        · rw [hadd]; exact hsucc
        · rw [hadd]; exact hspec.1
      rw [heq]
      refine ⟨?_, rfl, ?_⟩
      · simp [FAISSIndex.storedVectors, hsome]
      · intro hinv
        simp [FAISSIndex.storedVectors, hsome] at hinv ⊢
        omega
    · intro hfail
      have heq := hspec.2.2 hfail
      rw [heq]
      exact ⟨rfl, rfl⟩

/-- Witness for C7 (amended) at a concrete instance. -/
theorem c7_add_validation_witness :
    ((((mkFAISSIndex 1).add (Np.rank2 1 [[5]]) [⟨9, none, none⟩]).2 ≠ none) ↔
      ((Np.rank2 1 [[5]]).ndim ≠ 2 ∨
        (Np.rank2 1 [[5]]).shape1 ≠ (mkFAISSIndex 1).dimension ∨
        (Np.rank2 1 [[5]]).count ≠ [(⟨9, none, none⟩ : MetaRec)].length)) ∧
    (((mkFAISSIndex 1).add (Np.rank2 1 [[5]]) [⟨9, none, none⟩]).2 = none →
      ((mkFAISSIndex 1).add (Np.rank2 1 [[5]]) [⟨9, none, none⟩]).1.storedVectors
          = (mkFAISSIndex 1).storedVectors ++ (Np.rank2 1 [[5]]).rows ∧
      ((mkFAISSIndex 1).add (Np.rank2 1 [[5]]) [⟨9, none, none⟩]).1.metadata
          = (mkFAISSIndex 1).metadata ++ [⟨9, none, none⟩] ∧
      ((mkFAISSIndex 1).storedVectors.length = (mkFAISSIndex 1).metadata.length →
        ((mkFAISSIndex 1).add (Np.rank2 1 [[5]])
            [⟨9, none, none⟩]).1.storedVectors.length
          = ((mkFAISSIndex 1).add (Np.rank2 1 [[5]])
              [⟨9, none, none⟩]).1.metadata.length)) ∧
    (((mkFAISSIndex 1).add (Np.rank2 1 [[5]]) [⟨9, none, none⟩]).2 ≠ none →
      ((mkFAISSIndex 1).add (Np.rank2 1 [[5]]) [⟨9, none, none⟩]).1.storedVectors
          = (mkFAISSIndex 1).storedVectors ∧
      ((mkFAISSIndex 1).add (Np.rank2 1 [[5]]) [⟨9, none, none⟩]).1.metadata
          = (mkFAISSIndex 1).metadata) :=
  c7_add_validation (mkFAISSIndex 1) (Np.rank2 1 [[5]]) [⟨9, none, none⟩]
    (Or.inl ⟨rfl, rfl⟩)

/-- Every id row produced by a faiss flat search holds only `-1` padding or
non-negative stored ids. -/
theorem faissFlatSearch_ids_ge (stored : List (List Int)) (q : List Int)
    (k : Nat) : ∀ idx ∈ (faissFlatSearch stored q k).2, -1 ≤ idx := by
  intro idx hidx
  simp only [faissFlatSearch] at hidx
  rcases List.mem_append.mp hidx with h | h
  · obtain ⟨p, _, rfl⟩ := List.mem_map.mp h
    omega
  · rw [List.eq_of_mem_replicate h]

/-- The comprehension never raises when the metadata list is nonempty and
every id is `-1` or non-negative (as faiss guarantees). -/
theorem keptPositions_ok (len : Nat) (hlen : len ≠ 0) :
    ∀ (ids : List Int), (∀ idx ∈ ids, -1 ≤ idx) →
      ∃ ps, keptPositions len ids = .ok ps := by
  intro ids
  induction ids with
  | nil => exact fun _ => ⟨[], rfl⟩
  | cons idx rest ih =>
    intro hb
    obtain ⟨ps, hps⟩ := ih (fun x hx => hb x (List.mem_cons_of_mem _ hx))
    have hbi : -1 ≤ idx := hb idx (List.mem_cons_self _ _)
    by_cases hk : idx < (len : Int)
    · have hres : ∃ p, resolveIdx len idx = some p := by
        by_cases hpos : 0 ≤ idx
        · exact ⟨idx.toNat, by simp [resolveIdx, hpos, hk]⟩
        · refine ⟨((len : Int) + idx).toNat, ?_⟩
          have h1 : idx = -1 := by omega
          have h2 : 0 ≤ (len : Int) + idx := by omega
          simp [resolveIdx, hpos, h2]
      obtain ⟨p, hp⟩ := hres
      exact ⟨p :: ps, by simp [keptPositions, hk, hp, hps]⟩
    · exact ⟨ps, by simp [keptPositions, hk, hps]⟩

/-- C4: `load_indices` fails with `FileNotFoundError` when the text artifact
is absent; when only the image artifact is absent it succeeds silently, every
subsequent `search_image` on that retriever raises (an error, distinct from a
zero-match `ok []` result), and `search_text` behaves exactly as it would had
an image artifact also been present — in particular it returns a result (not
an exception) whenever the loaded text metadata is nonempty. -/
theorem c4_load_policy :
    (∀ (r : MultimodalRetriever) (fs : FS), fs.textArtifact = none →
      r.load_indices fs = .error .fileNotFoundError) ∧
    (∀ (r : MultimodalRetriever) (fs : FS) (ta : Artifact),
      fs.textArtifact = some ta → fs.imageArtifact = none →
      r.image_index.index = none →
      ∃ r2, r.load_indices fs = .ok r2 ∧
        (∀ path k, ∃ e, (r2.search_image path k).1 = .error e) ∧
        (∀ path k, (r2.search_image path k).1 ≠ .ok []) ∧
        (∀ (fs2 : FS) (ia : Artifact) (r3 : MultimodalRetriever)
            (q : String) (k : Nat),
          fs2.textArtifact = some ta → fs2.imageArtifact = some ia →
          r.load_indices fs2 = .ok r3 →
          r3.search_text q k = r2.search_text q k) ∧
        (ta.metadata ≠ [] → ∀ q k, ∃ res, r2.search_text q k = .ok res)) := by
  constructor
  · intro r fs h
    simp [MultimodalRetriever.load_indices, h]
  · intro r fs ta hta hia himg
    refine ⟨{ r with text_index := r.text_index.load ta }, ?_, ?_, ?_, ?_, ?_⟩
    · simp [MultimodalRetriever.load_indices, hta, hia]
    · intro path k
      exact ⟨.attributeError,
        by simp [MultimodalRetriever.search_image, FAISSIndex.searchPositions,
          himg]⟩
    · intro path k
      simp [MultimodalRetriever.search_image, FAISSIndex.searchPositions, himg]
    · intro fs2 ia r3 q k hta2 hia2 hload
      simp [MultimodalRetriever.load_indices, hta2, hia2] at hload
      rw [← hload]
      rfl
    · intro hne q k
      have hlen : ta.metadata.length ≠ 0 := by
        simpa [List.length_eq_zero] using hne
      obtain ⟨ps, hps⟩ := keptPositions_ok ta.metadata.length hlen
        ((faissFlatSearch ta.inner.vectors (r.textEmbed q) k).2)
        (faissFlatSearch_ids_ge _ _ _)
      refine ⟨(ps.map (fun p => ta.metadata.getD p default)), ?_⟩
      simp [MultimodalRetriever.search_text, FAISSIndex.search,
        FAISSIndex.searchPositions, FAISSIndex.load, hps, Except.map]

/-- Witness for C4 at a concrete instance. -/
theorem c4_load_policy_witness :
    (MultimodalRetriever.load_indices
        (mkRetriever (fun _ => [0]) (fun _ => [0])) ⟨none, none⟩
      = .error .fileNotFoundError) ∧
    (∃ r2, MultimodalRetriever.load_indices
        (mkRetriever (fun _ => [0]) (fun _ => [0]))
        ⟨some ⟨⟨.flat, true, [[1]]⟩, [⟨2, none, none⟩]⟩, none⟩ = .ok r2 ∧
      (∀ path k, ∃ e, (r2.search_image path k).1 = .error e) ∧
      (∀ path k, (r2.search_image path k).1 ≠ .ok []) ∧
      (∀ (fs2 : FS) (ia : Artifact) (r3 : MultimodalRetriever)
          (q : String) (k : Nat),
        fs2.textArtifact = some ⟨⟨.flat, true, [[1]]⟩, [⟨2, none, none⟩]⟩ →
        fs2.imageArtifact = some ia →
        (mkRetriever (fun _ => [0]) (fun _ => [0])).load_indices fs2 = .ok r3 →
        r3.search_text q k = r2.search_text q k) ∧
      ((⟨⟨.flat, true, [[1]]⟩, [⟨2, none, none⟩]⟩ : Artifact).metadata ≠ [] →
        ∀ q k, ∃ res, r2.search_text q k = .ok res)) :=
  ⟨c4_load_policy.1 _ _ rfl, c4_load_policy.2 _ _ _ rfl rfl rfl⟩

/-- The enrichment fold preserves the length of the metadata list and the
`payload` of every record (it only writes the `distance`/`similarity` keys). -/
theorem enrichMetadata_frame (md : List MetaRec) (ps : List Nat)
    (ds : List Rat) :
    (enrichMetadata md ps ds).length = md.length ∧
    ∀ n : Nat, ((enrichMetadata md ps ds)[n]?).map MetaRec.payload
      = (md[n]?).map MetaRec.payload := by
  unfold enrichMetadata
  generalize (ps.zip ds) = l
  induction l generalizing md with
  | nil => exact ⟨rfl, fun n => rfl⟩
  | cons hd tl ih =>
    rw [List.foldl_cons]
    obtain ⟨ihl, ihg⟩ := ih (md.set hd.1 (setDistSim (md.getD hd.1 default) hd.2))
    refine ⟨by rw [ihl, List.length_set], ?_⟩
    intro n
    rw [ihg n, List.getElem?_set]
    by_cases hpn : hd.1 = n
    · subst hpn
      by_cases hlt : hd.1 < md.length
      · simp [hlt, setDistSim, List.getD_eq_getElem?_getD,
          List.getElem?_eq_getElem hlt]
      · simp [hlt, List.getElem?_eq_none (by omega : md.length ≤ hd.1)]
    · simp [hpn]

/-- C6 counterexample: a `search_image` call changes the metadata records
stored in the image index — the returned result dicts alias the store, and
the enrichment loop writes `distance`/`similarity` into them in place. -/
theorem c6_counterexample :
    ((MultimodalRetriever.search_image
        ⟨fun _ => [0], fun _ => [1], mkFAISSIndex 768,
          ⟨512, "Flat", some ⟨.flat, true, [[0]]⟩, [⟨5, none, none⟩]⟩⟩
        "p" 1).2).image_index.metadata
      ≠ [⟨5, none, none⟩] := by decide

/-- C6 (amended): tool search calls never change the stored vectors, the
number of metadata records, the record payloads, or anything in the text
index — so a `search_image` call does not change what a later `search_text`
returns; but `search_image` does write the `distance` and `similarity` keys
into the stored image metadata records it returns (which is the one index
mutation a tool call can make; `search_text` takes no state). -/
theorem c6_search_image_frame (r : MultimodalRetriever) (path : String)
    (k : Nat) :
    ((r.search_image path k).2.text_index = r.text_index) ∧
    ((r.search_image path k).2.textEmbed = r.textEmbed) ∧
    ((r.search_image path k).2.imageEmbed = r.imageEmbed) ∧
    ((r.search_image path k).2.image_index.dimension
        = r.image_index.dimension) ∧
    ((r.search_image path k).2.image_index.indexType
        = r.image_index.indexType) ∧
    ((r.search_image path k).2.image_index.index = r.image_index.index) ∧
    ((r.search_image path k).2.image_index.metadata.length
        = r.image_index.metadata.length) ∧
    (∀ n : Nat, (((r.search_image path k).2.image_index.metadata)[n]?).map
          MetaRec.payload
        = ((r.image_index.metadata)[n]?).map MetaRec.payload) ∧
    (∀ q k2, (r.search_image path k).2.search_text q k2
        = r.search_text q k2) := by
  cases h : r.image_index.searchPositions (r.imageEmbed path) k with
  | error e => simp [MultimodalRetriever.search_image, h]
  | ok dp =>
    obtain ⟨dists, positions⟩ := dp
    have hfr := enrichMetadata_frame r.image_index.metadata positions dists
    simp [MultimodalRetriever.search_image, h, MultimodalRetriever.search_text,
      hfr.1, hfr.2]

/-- C8: after every Reasoning step the loop routes to Acting iff the model
output contains at least one tool-call request (zero requests route to Done);
in particular a first Reasoning output with no tool calls ends the session
after exactly one Reasoning step, with Acting never executed. -/
theorem c8_routing :
    (∀ (msgs : List Msg) (resp : Msg),
      shouldContinue (msgs ++ [resp]) = "tools" ↔ resp.hasToolCalls = true) ∧
    (∀ (llm : List Msg → String × List String) (exec : String → String)
        (fuel : Nat) (q : String),
      (llm (callModelMessages [Msg.human q])).2 = [] →
      runGraph llm exec (fuel + 1) [Msg.human q]
        = ⟨1, 0, 1, true,
            [Msg.human q,
             Msg.ai (llm (callModelMessages [Msg.human q])).1
               (llm (callModelMessages [Msg.human q])).2]⟩) := by
  have hlast : ∀ (msgs : List Msg) (resp : Msg),
      shouldContinue (msgs ++ [resp])
        = if resp.hasToolCalls then "tools" else "end" := by
    intro msgs resp
    rw [shouldContinue, List.getLastD_concat]
  constructor
  · intro msgs resp
    rw [hlast]
    cases h : resp.hasToolCalls <;> simp [h]
  · intro llm exec fuel q h
    have hnt : (Msg.ai (llm (callModelMessages [Msg.human q])).1
        (llm (callModelMessages [Msg.human q])).2).hasToolCalls = false := by
      simp [Msg.hasToolCalls, h]
    simp only [runGraph]
    rw [hlast, hnt]
    simp [injectsSystem]

/-- Witness for C8 at concrete instances. -/
theorem c8_routing_witness :
    (shouldContinue ([] ++ [Msg.ai "go" ["rag_text_search"]]) = "tools" ↔
      (Msg.ai "go" ["rag_text_search"]).hasToolCalls = true) ∧
    runGraph (fun _ => ("answer", [])) (fun s => s) (0 + 1) [Msg.human "hi"]
      = ⟨1, 0, 1, true,
          [Msg.human "hi",
           Msg.ai ((fun (_ : List Msg) => ("answer", ([] : List String)))
               (callModelMessages [Msg.human "hi"])).1
             ((fun (_ : List Msg) => ("answer", ([] : List String)))
               (callModelMessages [Msg.human "hi"])).2]⟩ := by
  exact ⟨c8_routing.1 [] (Msg.ai "go" ["rag_text_search"]),
    c8_routing.2 (fun _ => ("answer", [])) (fun s => s) 0 "hi" rfl⟩

/-- C9 counterexample: in a session whose first Reasoning output requests a
tool call, the system instruction is injected again on the second Reasoning
step — two injections in one session, not exactly one — because `_call_model`
never writes the injected copy back into the conversation state, so the
guard (`no SystemMessage in state`) fires on every iteration. -/
theorem c9_counterexample :
    (runGraph
        (fun msgs => if msgs.any (fun m => match m with
            | Msg.tool _ => true
            | _ => false)
          then ("done", ([] : List String))
          else ("", ["rag_text_search"]))
        (fun _ => "observation") 2 [Msg.human "q"]).injections = 2 ∧
    (runGraph
        (fun msgs => if msgs.any (fun m => match m with
            | Msg.tool _ => true
            | _ => false)
          then ("done", ([] : List String))
          else ("", ["rag_text_search"]))
        (fun _ => "observation") 2 [Msg.human "q"]).reasoningSteps = 2 ∧
    (runGraph
        (fun msgs => if msgs.any (fun m => match m with
            | Msg.tool _ => true
            | _ => false)
          then ("done", ([] : List String))
          else ("", ["rag_text_search"]))
        (fun _ => "observation") 2 [Msg.human "q"]).finished = true := by
  refine ⟨?_, ?_, ?_⟩ <;> rfl

/-- C9 (amended): starting from a conversation state that holds no system
message (as every session does — the state starts with the user message and
only ever gains AI and tool messages), the system instruction is freshly
prepended on *every* Reasoning step, exactly once per step: each model
invocation sees exactly one leading system instruction (never duplicated
within a context), but the injection is per-step, not once per session. -/
theorem c9_injection_per_step :
    (∀ msgs, msgs.any Msg.isSystem = false →
      callModelMessages msgs = Msg.system systemPrompt :: msgs) ∧
    (∀ (llm : List Msg → String × List String) (exec : String → String)
        (fuel : Nat) (msgs : List Msg), msgs.any Msg.isSystem = false →
      (runGraph llm exec fuel msgs).injections
        = (runGraph llm exec fuel msgs).reasoningSteps) := by
  constructor
  · intro msgs h
    simp [callModelMessages, injectsSystem, h]
  · intro llm exec fuel
    induction fuel with
    | zero => intro msgs _; rfl
    | succ n ih =>
      intro msgs h
      have hinjtrue : injectsSystem msgs = true := by simp [injectsSystem, h]
      have hinv :
          ((msgs ++ [Msg.ai (llm (callModelMessages msgs)).1
              (llm (callModelMessages msgs)).2]) ++
            toolNode exec (Msg.ai (llm (callModelMessages msgs)).1
              (llm (callModelMessages msgs)).2)).any Msg.isSystem = false := by
        simp [List.any_append, h, toolNode, Msg.toolCalls, Msg.isSystem,
          List.any_map, Function.comp]
      simp only [runGraph, hinjtrue, if_true]
      by_cases hsc : shouldContinue (msgs ++ [Msg.ai
          (llm (callModelMessages msgs)).1
          (llm (callModelMessages msgs)).2]) = "tools"
      · simp only [hsc, if_true, reduceIte]
        have hrec := ih _ hinv
        simpa [List.append_assoc] using hrec
      · simp [hsc]

/-- Witness for C9 (amended) at a concrete instance. -/
theorem c9_injection_per_step_witness :
    callModelMessages [Msg.human "q"]
      = Msg.system systemPrompt :: [Msg.human "q"] ∧
    (runGraph
        (fun msgs => if msgs.any (fun m => match m with
            | Msg.tool _ => true
            | _ => false)
          then ("done", ([] : List String))
          else ("", ["rag_text_search"]))
        (fun _ => "observation") 2 [Msg.human "q"]).injections
      = (runGraph
          (fun msgs => if msgs.any (fun m => match m with
              | Msg.tool _ => true
              | _ => false)
            then ("done", ([] : List String))
            else ("", ["rag_text_search"]))
          (fun _ => "observation") 2 [Msg.human "q"]).reasoningSteps :=
  ⟨c9_injection_per_step.1 [Msg.human "q"] rfl,
   c9_injection_per_step.2 _ _ 2 [Msg.human "q"] rfl⟩

/-- C5: whatever the state of the indices, the filesystem and the external
embedding/scoring services — including every exception any of them raises —
each of the three tools returns a textual payload through its catch-all
handler and never lets an exception propagate to its caller. -/
theorem c5_tools_never_propagate :
    (∀ (st : RagToolState) (fs : FS) (query : String) (k : Nat),
      ∃ st2 called s, ragTextToolRun st fs query k = (st2, called, .ok s)) ∧
    (∀ (st : RagToolState) (fs : FS) (image_path : String) (k : Nat),
      ∃ st2 called s,
        ragImageToolRun st fs image_path k = (st2, called, .ok s)) ∧
    (∀ (openRes : Except PyExc Unit) (scoreRes : Except PyExc (List Rat))
        (image_path question : String),
      ∃ s, imageQAToolRun openRes scoreRes image_path question = .ok s) := by
  refine ⟨?_, ?_, ?_⟩
  · intro st fs query k
    rcases h : ragTextBody st fs query k with ⟨st2, called, out⟩
    cases out with
    | error e =>
      exact ⟨st2, called, "Error retrieving restaurants: " ++ errStr e,
        by simp [ragTextToolRun, h]⟩
    | ok s => exact ⟨st2, called, s, by simp [ragTextToolRun, h]⟩
  · intro st fs image_path k
    rcases h : ragImageBody st fs image_path k with ⟨st2, called, out⟩
    cases out with
    | error e =>
      exact ⟨st2, called, "Error retrieving similar restaurants: " ++ errStr e,
        by simp [ragImageToolRun, h]⟩
    | ok s => exact ⟨st2, called, s, by simp [ragImageToolRun, h]⟩
  · intro openRes scoreRes image_path question
    cases h : imageQABody openRes scoreRes image_path question with
    | error e =>
      exact ⟨"Error analyzing image: " ++ errStr e,
        by simp [imageQAToolRun, h]⟩
    | ok s => exact ⟨s, by simp [imageQAToolRun, h]⟩

/-- C10: with a retriever injected, each RAG tool instance invokes
`load_indices` on a `_run` exactly when its `_indices_loaded` flag is still
unset; a successful load sets the flag (so no later `_run` of that instance
invokes `load_indices` again — for the text tool the state is then unchanged
by later runs, for the image tool the flag stays set); a failed load leaves
the whole tool state, flag included, unchanged, so the next `_run` retries. -/
theorem c10_lazy_load_memoization :
    ∀ (st : RagToolState) (fs : FS) (r : MultimodalRetriever),
      st.retriever = some r →
      (∀ query k,
        ((ragTextToolRun st fs query k).2.1 = !st.indicesLoaded) ∧
        (st.indicesLoaded = true → (ragTextToolRun st fs query k).1 = st) ∧
        (st.indicesLoaded = false →
          ((∃ r2, r.load_indices fs = .ok r2) →
            (ragTextToolRun st fs query k).1.indicesLoaded = true) ∧
          ((∃ e, r.load_indices fs = .error e) →
            (ragTextToolRun st fs query k).1 = st))) ∧
      (∀ image_path k,
        ((ragImageToolRun st fs image_path k).2.1 = !st.indicesLoaded) ∧
        (st.indicesLoaded = true →
          (ragImageToolRun st fs image_path k).1.indicesLoaded = true) ∧
        (st.indicesLoaded = false →
          ((∃ r2, r.load_indices fs = .ok r2) →
            (ragImageToolRun st fs image_path k).1.indicesLoaded = true) ∧
          ((∃ e, r.load_indices fs = .error e) →
            (ragImageToolRun st fs image_path k).1 = st))) := by
  intro st fs r hst
  obtain ⟨ret, loaded⟩ := st
  simp only at hst
  subst hst
  constructor
  · intro query k
    cases loaded with
    | true =>
      refine ⟨?_, ?_, by simp⟩
      · cases h : r.search_text query k <;>
          simp [ragTextToolRun, ragTextBody, h]
      · intro _
        cases h : r.search_text query k <;>
          simp [ragTextToolRun, ragTextBody, h]
    | false =>
      cases hl : r.load_indices fs with
      | error e =>
        refine ⟨by simp [ragTextToolRun, ragTextBody, hl], by simp, ?_⟩
        refine fun _ => ⟨fun hex => ?_, fun _ => ?_⟩
        · obtain ⟨r2, h2⟩ := hex
          simp at h2
        · simp [ragTextToolRun, ragTextBody, hl]
      | ok r2 =>
        refine ⟨?_, by simp, ?_⟩
        · cases h : r2.search_text query k <;>
            simp [ragTextToolRun, ragTextBody, hl, h]
        · refine fun _ => ⟨fun _ => ?_, fun hex => ?_⟩
          · cases h : r2.search_text query k <;>
              simp [ragTextToolRun, ragTextBody, hl, h]
          · obtain ⟨e, he⟩ := hex
            simp at he
  · intro image_path k
    cases loaded with
    | true =>
      refine ⟨?_, ?_, by simp⟩
      · rcases h : r.search_image image_path k with ⟨out, r2⟩
        cases out <;> simp [ragImageToolRun, ragImageBody, h]
      · intro _
        rcases h : r.search_image image_path k with ⟨out, r2⟩
        cases out <;> simp [ragImageToolRun, ragImageBody, h]
    | false =>
      cases hl : r.load_indices fs with
      | error e =>
        refine ⟨by simp [ragImageToolRun, ragImageBody, hl], by simp, ?_⟩
        refine fun _ => ⟨fun hex => ?_, fun _ => ?_⟩
        · obtain ⟨r2, h2⟩ := hex
          simp at h2
        · simp [ragImageToolRun, ragImageBody, hl]
      | ok r2 =>
        refine ⟨?_, by simp, ?_⟩
        · rcases h : r2.search_image image_path k with ⟨out, r3⟩
          cases out <;> simp [ragImageToolRun, ragImageBody, hl, h]
        · refine fun _ => ⟨fun _ => ?_, fun hex => ?_⟩
          · rcases h : r2.search_image image_path k with ⟨out, r3⟩
            cases out <;> simp [ragImageToolRun, ragImageBody, hl, h]
          · obtain ⟨e, he⟩ := hex
            simp at he

/-- Witness for C10 at a concrete instance. -/
theorem c10_lazy_load_memoization_witness :
    (∀ query k,
      ((ragTextToolRun ⟨some (mkRetriever (fun _ => [0]) (fun _ => [0])), false⟩
          ⟨none, none⟩ query k).2.1
        = !(⟨some (mkRetriever (fun _ => [0]) (fun _ => [0])), false⟩ :
            RagToolState).indicesLoaded) ∧
      ((⟨some (mkRetriever (fun _ => [0]) (fun _ => [0])), false⟩ :
          RagToolState).indicesLoaded = true →
        (ragTextToolRun ⟨some (mkRetriever (fun _ => [0]) (fun _ => [0])), false⟩
          ⟨none, none⟩ query k).1
          = ⟨some (mkRetriever (fun _ => [0]) (fun _ => [0])), false⟩) ∧
      ((⟨some (mkRetriever (fun _ => [0]) (fun _ => [0])), false⟩ :
          RagToolState).indicesLoaded = false →
        ((∃ r2, (mkRetriever (fun _ => [0]) (fun _ => [0])).load_indices
            ⟨none, none⟩ = .ok r2) →
          (ragTextToolRun ⟨some (mkRetriever (fun _ => [0]) (fun _ => [0])), false⟩
            ⟨none, none⟩ query k).1.indicesLoaded = true) ∧
        ((∃ e, (mkRetriever (fun _ => [0]) (fun _ => [0])).load_indices
            ⟨none, none⟩ = .error e) →
          (ragTextToolRun ⟨some (mkRetriever (fun _ => [0]) (fun _ => [0])), false⟩
            ⟨none, none⟩ query k).1
            = ⟨some (mkRetriever (fun _ => [0]) (fun _ => [0])), false⟩))) ∧
    (∀ image_path k,
      ((ragImageToolRun ⟨some (mkRetriever (fun _ => [0]) (fun _ => [0])), false⟩
          ⟨none, none⟩ image_path k).2.1
        = !(⟨some (mkRetriever (fun _ => [0]) (fun _ => [0])), false⟩ :
            RagToolState).indicesLoaded) ∧
      ((⟨some (mkRetriever (fun _ => [0]) (fun _ => [0])), false⟩ :
          RagToolState).indicesLoaded = true →
        (ragImageToolRun ⟨some (mkRetriever (fun _ => [0]) (fun _ => [0])), false⟩
          ⟨none, none⟩ image_path k).1.indicesLoaded = true) ∧
      ((⟨some (mkRetriever (fun _ => [0]) (fun _ => [0])), false⟩ :
          RagToolState).indicesLoaded = false →
        ((∃ r2, (mkRetriever (fun _ => [0]) (fun _ => [0])).load_indices
            ⟨none, none⟩ = .ok r2) →
          (ragImageToolRun ⟨some (mkRetriever (fun _ => [0]) (fun _ => [0])), false⟩
            ⟨none, none⟩ image_path k).1.indicesLoaded = true) ∧
        ((∃ e, (mkRetriever (fun _ => [0]) (fun _ => [0])).load_indices
            ⟨none, none⟩ = .error e) →
          (ragImageToolRun ⟨some (mkRetriever (fun _ => [0]) (fun _ => [0])), false⟩
            ⟨none, none⟩ image_path k).1
            = ⟨some (mkRetriever (fun _ => [0]) (fun _ => [0])), false⟩))) :=
  c10_lazy_load_memoization
    ⟨some (mkRetriever (fun _ => [0]) (fun _ => [0])), false⟩ ⟨none, none⟩
    (mkRetriever (fun _ => [0]) (fun _ => [0])) rfl
